import Mathlib

/-!
Shallow embedding of `src/main.py` (a "GM" bot for Ink Chain): the wallet
transaction submission pipeline (`GMBot.send_gm_transaction` with its
balance gate, eligibility stub `check_can_gm`, gas-price policy, gas
estimation `estimate_gas`, broadcast, receipt wait and exception-keyword
classification), the per-wallet retry loop of `GMBot.run`, failed-wallet
aggregation, and the enrichment step of `GMBot.save_results`.

External RPC behaviour (balances, nonces, gas price, broadcast, receipts)
is supplied through an explicit per-attempt environment record; the only
time-dependent side effect the claims mention (the inter-retry sleep) is
recorded as data.  Native amounts are rationals (the source works with
exact `Decimal`/integer wei values), machine strings are `List Char`.
-/

/-- Outcome kinds: the `WalletStatus` constants of the source. -/
inductive WalletStatus where
  | success
  | failed
  | insufficientBalance
  | networkError
  | alreadyGmed
  | timeout
  | invalidContract
  deriving DecidableEq

/-- A configured wallet entry: address, private key, optional proxy. -/
structure Wallet where
  address : List Char
  private_key : List Char
  proxy : Option (List Char)
  deriving DecidableEq

/-- One attempt's view of the chain RPC collaborator and the local signing
steps.  `balance` is what `check_balance` returns (`none` when the
underlying RPC call raised and was swallowed there).  Every step the
source's try block runs can raise: the nonce fetch, the gas-price fetch,
`build_transaction`, signing, the broadcast and the receipt wait are each
an `Except` carrying the exception message (`waitReceipt` takes the timeout
in seconds).  Only the gas estimate stays an `Option`: `estimate_gas`
swallows its exception in its own handler. -/
structure ChainEnv where
  balance : Option ℚ
  nonce : Except (List Char) ℕ
  gasPrice : Except (List Char) ℕ
  gasEstimate : Option ℕ
  buildTx : Except (List Char) Unit
  signTx : Except (List Char) Unit
  broadcast : Except (List Char) (List Char)
  waitReceipt : ℕ → Except (List Char) ℕ

/-- The configuration fields `send_gm_transaction` reads. -/
structure BotConfig where
  max_gas_price_gwei : ℕ
  gas_price_multiplier : ℚ
  chain_id : ℕ

/-- The built (and signed) transaction: the fields the source sets. -/
structure TxRecord where
  nonce : ℕ
  gasPrice : ℕ
  gas : ℕ
  chainId : ℕ
  deriving DecidableEq

/-- Return value of one `send_gm_transaction` call, together with which
irreversible steps were reached: `tx` is the finalized transaction object
(built, with the estimated gas limit set) if one was formed, `broadcasted`
records whether `send_raw_transaction` was invoked. -/
structure SubmitResult where
  success : Bool
  status : WalletStatus
  message : List Char
  tx : Option TxRecord
  broadcasted : Bool
  deriving DecidableEq

/-- `check_can_gm`: the source always answers "eligible now, zero wait". -/
def check_can_gm (_address : List Char) : Bool × ℕ :=
  (true, 0)

/-- `estimate_gas`: a 20% margin over the RPC estimate, truncated to an
integer; a raised estimate call is swallowed and falls back to the fixed
default 100000. -/
def estimate_gas (rpcEstimate : Option ℕ) : ℕ :=
  match rpcEstimate with
  | some g => (⌊(g : ℚ) * (1.2 : ℚ)⌋).toNat
  | none => 100000

/-- Gas-price policy inlined in `send_gm_transaction`: cap the network price
at the configured gwei ceiling (converted to wei), then apply the
multiplier and truncate to an integer. -/
def effective_gas_price (networkPrice maxGwei : ℕ) (multiplier : ℚ) : ℕ :=
  let max_gas_price := maxGwei * 1000000000
  let gas_price := if networkPrice > max_gas_price then max_gas_price else networkPrice
  (⌊(gas_price : ℚ) * multiplier⌋).toNat

/-- Minimum balance (in native units) required before a transaction is tried. -/
def min_balance : ℚ := 0.0001

/-- Lowercasing, as Python `str.lower` on the ASCII range. -/
def lowerStr (s : List Char) : List Char := s.map Char.toLower

/-- Python's substring operator `needle in hay`. -/
def isSub (needle : List Char) : List Char → Bool
  | [] => needle.isEmpty
  | c :: rest => needle.isPrefixOf (c :: rest) || isSub needle rest

/-- The except-branch of `send_gm_transaction`: keyword classification of an
exception message, matched case-insensitively on the lowered message. -/
def classify_error (msg : List Char) : WalletStatus :=
  if isSub "insufficient funds".toList (lowerStr msg) then WalletStatus.insufficientBalance
  else if isSub "already".toList (lowerStr msg) || isSub "wait".toList (lowerStr msg) then
    WalletStatus.alreadyGmed
  else if isSub "timeout".toList (lowerStr msg) then WalletStatus.timeout
  else WalletStatus.failed

/-- The uniform exception handler of `send_gm_transaction`: classify the
message, return it verbatim. -/
def handle_exception (msg : List Char) (txSoFar : Option TxRecord) (sent : Bool) :
    SubmitResult :=
  { success := false, status := classify_error msg, message := msg,
    tx := txSoFar, broadcasted := sent }

/-- Message of the `TypeError` CPython raises when `check_balance` returned
`None` and the source formats it with the `:.6f` spec in the
insufficient-balance f-string. -/
def none_format_error_msg : List Char :=
  "unsupported format string passed to NoneType.__format__".toList

/-- The insufficient-balance message.  The decimal digit rendering of the
balance is abstracted to the scaled integer part; no claim depends on the
digits. -/
def balance_message (b : ℚ) : List Char :=
  "Баланс: ".toList ++ (toString ⌊b * 1000000⌋).toList
    ++ " ETH (нужно минимум 0.000100 ETH)".toList

/-- Message of the pre-broadcast already-submitted branch. -/
def wait_message (waitSeconds : ℕ) : List Char :=
  "Следующий GM через ".toList ++ (toString (waitSeconds / 3600)).toList
    ++ "ч ".toList ++ (toString (waitSeconds % 3600 / 60)).toList ++ "м".toList

/-- `send_gm_transaction`: balance gate, eligibility gate, nonce and
gas-price fetch, gas-price policy, build/estimate/sign, broadcast, receipt
wait (timeout 120 s), success or revert classification; any exception
raised at any of these steps goes through the single `handle_exception`
branch of the source's try block.  When the balance is unavailable the
source's own message-formatting raises, so that case lands in the handler
with the `TypeError` text. -/
def send_gm_transaction (cfg : BotConfig) (env : ChainEnv) (w : Wallet) : SubmitResult :=
  match env.balance with
  | none =>
      handle_exception none_format_error_msg none false
  | some balance_eth =>
      if balance_eth < min_balance then
        { success := false, status := WalletStatus.insufficientBalance,
          message := balance_message balance_eth, tx := none, broadcasted := false }
      else
        let cg := check_can_gm w.address
        if cg.1 = false then
          { success := false, status := WalletStatus.alreadyGmed,
            message := wait_message cg.2, tx := none, broadcasted := false }
        else
          match env.nonce with
          | Except.error e => handle_exception e none false
          | Except.ok nonce =>
              match env.gasPrice with
              | Except.error e => handle_exception e none false
              | Except.ok networkPrice =>
                  let gas_price := effective_gas_price networkPrice
                    cfg.max_gas_price_gwei cfg.gas_price_multiplier
                  match env.buildTx with
                  | Except.error e => handle_exception e none false
                  | Except.ok _ =>
                      let gas_limit := estimate_gas env.gasEstimate
                      let transaction : TxRecord :=
                        { nonce := nonce, gasPrice := gas_price, gas := gas_limit,
                          chainId := cfg.chain_id }
                      match env.signTx with
                      | Except.error e => handle_exception e (some transaction) false
                      | Except.ok _ =>
                          match env.broadcast with
                          | Except.error e => handle_exception e (some transaction) true
                          | Except.ok tx_hash =>
                              match env.waitReceipt 120 with
                              | Except.error e =>
                                  handle_exception e (some transaction) true
                              | Except.ok receiptStatus =>
                                  if receiptStatus = 1 then
                                    { success := true, status := WalletStatus.success,
                                      message := "TX: ".toList ++ tx_hash,
                                      tx := some transaction, broadcasted := true }
                                  else
                                    { success := false, status := WalletStatus.failed,
                                      message := "Транзакция reverted. TX: ".toList ++ tx_hash,
                                      tx := some transaction, broadcasted := true }

/-- One logged attempt: the attempt number with the submit outcome (the
source's result dict keeps the address, attempt number, status and
message; the transient `success` flag drives the loop). -/
structure AttemptEntry where
  attempt : ℕ
  result : SubmitResult
  deriving DecidableEq

/-- Loop break condition of `run`: success, or an already-submitted outcome. -/
def break_cond (r : SubmitResult) : Bool :=
  r.success || decide (r.status = WalletStatus.alreadyGmed)

/-- Per-wallet attempt loop of `run`: at most `fuel` further attempts
starting at number `attempt`, breaking on `break_cond`; the second
component is the log of inter-retry sleeps (each of `retry_delay`
seconds), taken exactly when the loop is about to re-attempt. -/
def retry_loop (outcome : ℕ → SubmitResult) (retry_delay : ℕ) :
    ℕ → ℕ → List AttemptEntry × List ℕ
  | _, 0 => ([], [])
  | attempt, fuel + 1 =>
      let r := outcome attempt
      let entry : AttemptEntry := { attempt := attempt, result := r }
      if break_cond r then ([entry], [])
      else if fuel = 0 then ([entry], [])
      else
        let rest := retry_loop outcome retry_delay (attempt + 1) fuel
        (entry :: rest.1, retry_delay :: rest.2)

/-- Attempts recorded for one wallet, `attemptEnv` giving the chain's
behaviour at each attempt number. -/
def walletAttempts (cfg : BotConfig) (attemptEnv : ℕ → ChainEnv) (d maxR : ℕ)
    (w : Wallet) : List AttemptEntry :=
  (retry_loop (fun a => send_gm_transaction cfg (attemptEnv a) w) d 1 maxR).1

/-- The sleeps taken between this wallet's attempts. -/
def walletSleepLog (cfg : BotConfig) (attemptEnv : ℕ → ChainEnv) (d maxR : ℕ)
    (w : Wallet) : List ℕ :=
  (retry_loop (fun a => send_gm_transaction cfg (attemptEnv a) w) d 1 maxR).2

/-- Placeholder entry for `getLastD`; never reached once `max_retries ≥ 1`. -/
def default_entry : AttemptEntry :=
  { attempt := 0,
    result := { success := false, status := WalletStatus.failed, message := [],
                tx := none, broadcasted := false } }

/-- The wallet's terminal (last-attempt) outcome. -/
def lastAttempt (cfg : BotConfig) (attemptEnv : ℕ → ChainEnv) (d maxR : ℕ)
    (w : Wallet) : SubmitResult :=
  ((walletAttempts cfg attemptEnv d maxR w).getLastD default_entry).result

/-- One row of the append-only result log (`self.results`). -/
structure ResultRecord where
  address : List Char
  attempt : ℕ
  status : WalletStatus
  message : List Char
  deriving DecidableEq

/-- One row of `self.failed_wallets`. -/
structure FailedWalletRecord where
  address : List Char
  last_status : WalletStatus
  last_error : List Char
  deriving DecidableEq

/-- `GMBot.run` from a wallet index on: process each wallet's retry loop in
order, append its attempt rows, and append a failed row when the terminal
attempt was neither a success nor already-submitted.  When the loop ran
zero times the post-loop check reads the unassigned `status` variable: a
`NameError`, modelled as `Except.error ()`. -/
def runFrom (cfg : BotConfig) (envs : ℕ → ℕ → ChainEnv) (max_retries retry_delay : ℕ) :
    List Wallet → ℕ → Except Unit (List ResultRecord × List FailedWalletRecord)
  | [], _ => Except.ok ([], [])
  | w :: rest, i =>
      let atts := walletAttempts cfg (envs i) retry_delay max_retries w
      match atts.getLast? with
      | none => Except.error ()
      | some last =>
          match runFrom cfg envs max_retries retry_delay rest (i + 1) with
          | Except.error e => Except.error e
          | Except.ok (rs, fs) =>
              let myResults := atts.map fun e =>
                ({ address := w.address, attempt := e.attempt,
                   status := e.result.status, message := e.result.message } : ResultRecord)
              if last.result.success = false ∧ last.result.status ≠ WalletStatus.alreadyGmed then
                Except.ok (myResults ++ rs,
                  ({ address := w.address, last_status := last.result.status,
                     last_error := last.result.message } : FailedWalletRecord) :: fs)
              else
                Except.ok (myResults ++ rs, fs)

/-- `GMBot.run` over the whole configured wallet list. -/
def run_bot (cfg : BotConfig) (envs : ℕ → ℕ → ChainEnv) (max_retries retry_delay : ℕ)
    (wallets : List Wallet) : Except Unit (List ResultRecord × List FailedWalletRecord) :=
  runFrom cfg envs max_retries retry_delay wallets 0

/-- A failed-wallets row after `save_results` enriched it with the config
wallet's secrets. -/
structure EnrichedFailedWallet where
  address : List Char
  private_key : List Char
  proxy : Option (List Char)
  last_error : List Char
  last_status : WalletStatus
  deriving DecidableEq

/-- The enrichment loop of `save_results`: for each failed row, the first
config wallet whose address matches case-insensitively contributes its
private key and proxy; rows without a match are dropped. -/
def enrich_failed_wallets (configWallets : List Wallet) (failed : List FailedWalletRecord) :
    List EnrichedFailedWallet :=
  failed.filterMap fun f =>
    (configWallets.find? fun w => decide (lowerStr w.address = lowerStr f.address)).map fun w =>
      { address := w.address, private_key := w.private_key, proxy := w.proxy,
        last_error := f.last_error, last_status := f.last_status }

/-- Summary counter `successful` of `save_results`. -/
def summary_successful (results : List ResultRecord) : ℕ :=
  results.countP fun r => decide (r.status = WalletStatus.success)

/-- Summary counter `already_gmed` of `save_results`. -/
def summary_already_gmed (results : List ResultRecord) : ℕ :=
  results.countP fun r => decide (r.status = WalletStatus.alreadyGmed)

/-- Closed-form description of the failed row a wallet contributes (used to
state the failed-set characterisation). -/
def failed_record_of (cfg : BotConfig) (envs : ℕ → ℕ → ChainEnv) (d maxR : ℕ)
    (p : ℕ × Wallet) : Option FailedWalletRecord :=
  let t := lastAttempt cfg (envs p.1) d maxR p.2
  if t.status ≠ WalletStatus.success ∧ t.status ≠ WalletStatus.alreadyGmed then
    some { address := p.2.address, last_status := t.status, last_error := t.message }
  else none

/-- Concrete configuration used by witnesses. -/
def cfgA : BotConfig :=
  { max_gas_price_gwei := 50, gas_price_multiplier := (1.1 : ℚ), chain_id := 57073 }

/-- Concrete wallet used by witnesses. -/
def walletA : Wallet :=
  { address := "0xAbC1".toList, private_key := "0xKEY".toList, proxy := none }

/-- Environment of a clean, confirmed submission. -/
def envOk : ChainEnv :=
  { balance := some 1, nonce := Except.ok 7, gasPrice := Except.ok 2000000000,
    gasEstimate := some 30000, buildTx := Except.ok (), signTx := Except.ok (),
    broadcast := Except.ok "deadbeef".toList, waitReceipt := fun _ => Except.ok 1 }

/-- Environment whose broadcast raises a timeout-classified exception. -/
def envTimeout : ChainEnv :=
  { envOk with broadcast := Except.error "connection timeout".toList }

/-- Environment whose broadcast raises an already-submitted revert message. -/
def envAlready : ChainEnv :=
  { envOk with broadcast := Except.error "GM already sent, wait 1h".toList }

/-- Environment whose balance query failed (`check_balance` returned None). -/
def envNoBalance : ChainEnv :=
  { envOk with balance := none }

/-- Environment whose nonce fetch raises a rate-limiter message containing
"wait"; broadcast and receipt would succeed but are never reached. -/
def envNonceWait : ChainEnv :=
  { envOk with nonce := Except.error "please wait 10 seconds".toList }

theorem isPre_refl (l : List Char) : l.isPrefixOf l = true := by
  induction l with
  | nil => rfl
  | cons a t ih => simp [List.isPrefixOf, ih]

theorem isPre_nil (l : List Char) : List.isPrefixOf [] l = true := by
  cases l <;> rfl

theorem isPre_append : ∀ (n l t : List Char),
    n.isPrefixOf l = true → n.isPrefixOf (l ++ t) = true
  | [], l, t, _ => isPre_nil (l ++ t)
  | a :: n', [], t, h => by simp [List.isPrefixOf] at h
  | a :: n', b :: l', t, h => by
      simp only [List.isPrefixOf, Bool.and_eq_true] at h
      simp only [List.cons_append, List.isPrefixOf, Bool.and_eq_true]
      exact ⟨h.1, isPre_append n' l' t h.2⟩

theorem isSub_nil_needle (l : List Char) : isSub [] l = true := by
  cases l <;> simp [isSub, List.isPrefixOf]

theorem isSub_append_right (n h t : List Char) (hs : isSub n h = true) :
    isSub n (h ++ t) = true := by
  induction h with
  | nil =>
      have hn : n = [] := by
        cases n with
        | nil => rfl
        | cons c r => simp [isSub, List.isEmpty] at hs
      subst hn
      exact isSub_nil_needle t
  | cons c r ih =>
      simp only [isSub, Bool.or_eq_true] at hs
      simp only [List.cons_append, isSub, Bool.or_eq_true]
      rcases hs with h1 | h2
      · exact Or.inl (isPre_append n (c :: r) t h1)
      · exact Or.inr (ih h2)

theorem isSub_append_self (pre n : List Char) : isSub n (pre ++ n) = true := by
  induction pre with
  | nil =>
      cases n with
      | nil => rfl
      | cons c r => simp [isSub, isPre_refl]
  | cons c r ih =>
      simp only [List.cons_append, isSub, Bool.or_eq_true]
      exact Or.inr ih

theorem classify_error_ne_success (m : List Char) :
    classify_error m ≠ WalletStatus.success := by
  unfold classify_error
  split_ifs <;> simp

theorem send_success_iff (cfg : BotConfig) (env : ChainEnv) (w : Wallet) :
    (send_gm_transaction cfg env w).success = true ↔
      (send_gm_transaction cfg env w).status = WalletStatus.success := by
  unfold send_gm_transaction
  cases hb : env.balance with
  | none => simp [handle_exception, classify_error_ne_success]
  | some b =>
      dsimp only
      split_ifs with h1 h2
      · simp
      · simp [check_can_gm] at h2
      · cases hn : env.nonce with
        | error e => simp [handle_exception, classify_error_ne_success]
        | ok n =>
            cases hgp : env.gasPrice with
            | error e => simp [handle_exception, classify_error_ne_success]
            | ok gp =>
                cases hbt : env.buildTx with
                | error e => simp [handle_exception, classify_error_ne_success]
                | ok u =>
                    cases hsg : env.signTx with
                    | error e => simp [handle_exception, classify_error_ne_success]
                    | ok u2 =>
                        cases hbr : env.broadcast with
                        | error e => simp [handle_exception, classify_error_ne_success]
                        | ok h =>
                            cases hr : env.waitReceipt 120 with
                            | error e =>
                                simp [handle_exception, classify_error_ne_success]
                            | ok s =>
                                dsimp only
                                split_ifs <;> simp

theorem retry_loop_ne_nil (o : ℕ → SubmitResult) (d : ℕ) :
    ∀ (f s : ℕ), 1 ≤ f → (retry_loop o d s f).1 ≠ []
  | 0, _, hf => by omega
  | f + 1, s, _ => by
      simp only [retry_loop]
      split_ifs <;> simp

theorem retry_loop_length_le (o : ℕ → SubmitResult) (d : ℕ) :
    ∀ (f s : ℕ), (retry_loop o d s f).1.length ≤ f := by
  intro f
  induction f with
  | zero => intro s; simp [retry_loop]
  | succ f ih =>
      intro s
      simp only [retry_loop]
      split_ifs
      · simp
      · simp
      · have := ih (s + 1)
        simp only [List.length_cons]
        omega

theorem retry_loop_attempts (o : ℕ → SubmitResult) (d : ℕ) :
    ∀ (f s : ℕ), (retry_loop o d s f).1.map (fun e => e.attempt)
      = List.range' s (retry_loop o d s f).1.length := by
  intro f
  induction f with
  | zero => intro s; simp [retry_loop]
  | succ f ih =>
      intro s
      simp only [retry_loop]
      split_ifs
      · simp [List.range'_succ]
      · simp [List.range'_succ]
      · simp only [List.map_cons, List.length_cons, List.range'_succ]
        exact congrArg (fun l => s :: l) (ih (s + 1))

theorem retry_loop_result (o : ℕ → SubmitResult) (d : ℕ) :
    ∀ (f s : ℕ), ∀ e ∈ (retry_loop o d s f).1, e.result = o e.attempt := by
  intro f
  induction f with
  | zero => intro s e he; simp [retry_loop] at he
  | succ f ih =>
      intro s e he
      simp only [retry_loop] at he
      split_ifs at he
      · simp only [List.mem_singleton] at he
        subst he; rfl
      · simp only [List.mem_singleton] at he
        subst he; rfl
      · rcases List.mem_cons.mp he with rfl | h2
        · rfl
        · exact ih (s + 1) e h2

theorem retry_loop_dropLast (o : ℕ → SubmitResult) (d : ℕ) :
    ∀ (f s : ℕ), ∀ e ∈ (retry_loop o d s f).1.dropLast, break_cond e.result = false := by
  intro f
  induction f with
  | zero => intro s e he; simp [retry_loop] at he
  | succ f ih =>
      intro s e he
      simp only [retry_loop] at he
      split_ifs at he with h1 h2
      · simp at he
      · simp at he
      · rw [List.dropLast_cons_of_ne_nil (retry_loop_ne_nil o d f (s + 1) (by omega))] at he
        rcases List.mem_cons.mp he with rfl | h3
        · simpa using h1
        · exact ih (s + 1) e h3

theorem retry_loop_sleeps (o : ℕ → SubmitResult) (d : ℕ) :
    ∀ (f s : ℕ), (retry_loop o d s f).2
      = List.replicate ((retry_loop o d s f).1.length - 1) d := by
  intro f
  induction f with
  | zero => intro s; simp [retry_loop]
  | succ f ih =>
      intro s
      simp only [retry_loop]
      split_ifs with h1 h2
      · simp
      · simp
      · have hlen : 1 ≤ (retry_loop o d (s + 1) f).1.length :=
          List.length_pos.mpr (retry_loop_ne_nil o d f (s + 1) (by omega))
        obtain ⟨m, hm⟩ : ∃ m, (retry_loop o d (s + 1) f).1.length = m + 1 :=
          ⟨_, (Nat.succ_pred_eq_of_pos hlen).symm⟩
        simp only [List.length_cons, hm, Nat.add_sub_cancel, List.replicate_succ]
        rw [ih (s + 1), hm]
        simp

theorem countP_of_dropLast_false {α : Type} (l : List α) (p : α → Bool) (h : l ≠ [])
    (hd : ∀ a ∈ l.dropLast, p a = false) :
    l.countP p = if p (l.getLast h) then 1 else 0 := by
  conv_lhs => rw [← List.dropLast_concat_getLast h]
  rw [List.countP_append]
  have h0 : l.dropLast.countP p = 0 :=
    List.countP_eq_zero.mpr (by intro a ha; simp [hd a ha])
  rw [h0]
  simp [List.countP_cons]

theorem find?_of_exists {α : Type} (l : List α) (p : α → Bool)
    (hex : ∃ a ∈ l, p a = true) :
    ∃ b, l.find? p = some b ∧ b ∈ l ∧ p b = true := by
  induction l with
  | nil => obtain ⟨a, ha, _⟩ := hex; cases ha
  | cons x t ih =>
      obtain ⟨a, ha, hpa⟩ := hex
      by_cases hx : p x = true
      · exact ⟨x, by rw [List.find?_cons_of_pos _ hx], by simp, hx⟩
      · have hat : a ∈ t := by
          rcases List.mem_cons.mp ha with rfl | hmem
          · exact absurd hpa hx
          · exact hmem
        obtain ⟨b, hb1, hb2, hb3⟩ := ih ⟨a, hat, hpa⟩
        refine ⟨b, ?_, List.mem_cons.mpr (Or.inr hb2), hb3⟩
        rw [List.find?_cons_of_neg _ (by simpa using hx), hb1]

theorem filterMap_length_of_isSome {α β : Type} (l : List α) (g : α → Option β)
    (h : ∀ a ∈ l, (g a).isSome) : (l.filterMap g).length = l.length := by
  induction l with
  | nil => rfl
  | cons x t ih =>
      obtain ⟨b, hb⟩ := Option.isSome_iff_exists.mp (h x (by simp))
      rw [List.filterMap_cons, hb]
      simp only [List.length_cons]
      rw [ih (fun a ha => h a (by simp [ha]))]

theorem snd_mem_of_mem_enumFrom {α : Type} :
    ∀ {l : List α} {n : ℕ} {p : ℕ × α}, p ∈ l.enumFrom n → p.2 ∈ l := by
  intro l
  induction l with
  | nil => intro n p h; cases h
  | cons x t ih =>
      intro n p h
      rw [List.enumFrom_cons, List.mem_cons] at h
      rcases h with rfl | h2
      · simp
      · exact List.mem_cons.mpr (Or.inr (ih h2))

theorem walletAttempts_ne_nil (cfg : BotConfig) (ae : ℕ → ChainEnv) (d maxR : ℕ)
    (w : Wallet) (h : 1 ≤ maxR) : walletAttempts cfg ae d maxR w ≠ [] :=
  retry_loop_ne_nil _ d maxR 1 h

theorem walletAttempts_result (cfg : BotConfig) (ae : ℕ → ChainEnv) (d maxR : ℕ)
    (w : Wallet) : ∀ e ∈ walletAttempts cfg ae d maxR w,
      e.result = send_gm_transaction cfg (ae e.attempt) w := by
  intro e he
  exact retry_loop_result _ d maxR 1 e he

theorem walletAttempts_success_iff (cfg : BotConfig) (ae : ℕ → ChainEnv) (d maxR : ℕ)
    (w : Wallet) (e : AttemptEntry) (he : e ∈ walletAttempts cfg ae d maxR w) :
    e.result.success = true ↔ e.result.status = WalletStatus.success := by
  rw [walletAttempts_result cfg ae d maxR w e he]
  exact send_success_iff cfg (ae e.attempt) w

theorem lastAttempt_eq (cfg : BotConfig) (ae : ℕ → ChainEnv) (d maxR : ℕ) (w : Wallet)
    (hne : walletAttempts cfg ae d maxR w ≠ []) :
    lastAttempt cfg ae d maxR w = ((walletAttempts cfg ae d maxR w).getLast hne).result := by
  unfold lastAttempt
  rw [List.getLastD_eq_getLast?, List.getLast?_eq_getLast _ hne]
  rfl

theorem walletAttempts_countP (cfg : BotConfig) (ae : ℕ → ChainEnv) (d maxR : ℕ)
    (w : Wallet) (h : 1 ≤ maxR) (st : WalletStatus)
    (hst : st = WalletStatus.success ∨ st = WalletStatus.alreadyGmed) :
    (walletAttempts cfg ae d maxR w).countP (fun e => decide (e.result.status = st))
      = if (lastAttempt cfg ae d maxR w).status = st then 1 else 0 := by
  have hne := walletAttempts_ne_nil cfg ae d maxR w h
  rw [lastAttempt_eq cfg ae d maxR w hne]
  have hd : ∀ e ∈ (walletAttempts cfg ae d maxR w).dropLast,
      (fun e => decide (e.result.status = st)) e = false := by
    intro e he
    have hmem : e ∈ walletAttempts cfg ae d maxR w := List.dropLast_subset _ he
    have hbc : break_cond e.result = false := retry_loop_dropLast _ d maxR 1 e he
    simp only [break_cond, Bool.or_eq_false_iff, decide_eq_false_iff_not] at hbc
    rcases hst with rfl | rfl
    · simp only [decide_eq_false_iff_not]
      intro hcontra
      have hsucc := (walletAttempts_success_iff cfg ae d maxR w e hmem).mpr hcontra
      rw [hbc.1] at hsucc
      exact Bool.noConfusion hsucc
    · simp only [decide_eq_false_iff_not]
      exact hbc.2
  rw [countP_of_dropLast_false _ (fun e => decide (e.result.status = st)) hne hd]
  simp

theorem runFrom_spec (cfg : BotConfig) (envs : ℕ → ℕ → ChainEnv) (maxR d : ℕ)
    (h : 1 ≤ maxR) :
    ∀ (ws : List Wallet) (i : ℕ),
      ∃ rs, runFrom cfg envs maxR d ws i
          = Except.ok (rs, (ws.enumFrom i).filterMap (failed_record_of cfg envs d maxR))
        ∧ summary_successful rs
            = (ws.enumFrom i).countP (fun p =>
                decide ((lastAttempt cfg (envs p.1) d maxR p.2).status = WalletStatus.success))
        ∧ summary_already_gmed rs
            = (ws.enumFrom i).countP (fun p =>
                decide ((lastAttempt cfg (envs p.1) d maxR p.2).status
                  = WalletStatus.alreadyGmed)) := by
  intro ws
  induction ws with
  | nil =>
      intro i
      exact ⟨[], rfl, rfl, rfl⟩
  | cons w rest ih =>
      intro i
      obtain ⟨rs', hrun', hs', ha'⟩ := ih (i + 1)
      have hne := walletAttempts_ne_nil cfg (envs i) d maxR w h
      have hlastq := List.getLast?_eq_getLast (walletAttempts cfg (envs i) d maxR w) hne
      have hlastAtt := lastAttempt_eq cfg (envs i) d maxR w hne
      have hiff := walletAttempts_success_iff cfg (envs i) d maxR w _ (List.getLast_mem hne)
      have hsf : ((walletAttempts cfg (envs i) d maxR w).getLast hne).result.success = false
          ↔ ((walletAttempts cfg (envs i) d maxR w).getLast hne).result.status
              ≠ WalletStatus.success := by
        rw [Bool.eq_false_iff]
        exact not_congr hiff
      have hcS := walletAttempts_countP cfg (envs i) d maxR w h WalletStatus.success (Or.inl rfl)
      have hcA := walletAttempts_countP cfg (envs i) d maxR w h WalletStatus.alreadyGmed
        (Or.inr rfl)
      have hfunS : ((fun r : ResultRecord => decide (r.status = WalletStatus.success)) ∘
          (fun e : AttemptEntry =>
            ({ address := w.address, attempt := e.attempt, status := e.result.status,
               message := e.result.message } : ResultRecord)))
          = fun e : AttemptEntry => decide (e.result.status = WalletStatus.success) := rfl
      have hfunA : ((fun r : ResultRecord => decide (r.status = WalletStatus.alreadyGmed)) ∘
          (fun e : AttemptEntry =>
            ({ address := w.address, attempt := e.attempt, status := e.result.status,
               message := e.result.message } : ResultRecord)))
          = fun e : AttemptEntry => decide (e.result.status = WalletStatus.alreadyGmed) := rfl
      refine ⟨(walletAttempts cfg (envs i) d maxR w).map (fun e =>
          ({ address := w.address, attempt := e.attempt, status := e.result.status,
             message := e.result.message } : ResultRecord)) ++ rs', ?_, ?_, ?_⟩
      · simp only [runFrom, hlastq, hrun']
        rw [List.enumFrom_cons, List.filterMap_cons]
        by_cases hc : ((walletAttempts cfg (envs i) d maxR w).getLast hne).result.status
              ≠ WalletStatus.success
            ∧ ((walletAttempts cfg (envs i) d maxR w).getLast hne).result.status
              ≠ WalletStatus.alreadyGmed
        · rw [if_pos ⟨hsf.mpr hc.1, hc.2⟩]
          have hfr : failed_record_of cfg envs d maxR (i, w) = some
              { address := w.address,
                last_status :=
                  ((walletAttempts cfg (envs i) d maxR w).getLast hne).result.status,
                last_error :=
                  ((walletAttempts cfg (envs i) d maxR w).getLast hne).result.message } := by
            simp only [failed_record_of, hlastAtt]
            rw [if_pos hc]
          rw [hfr]
        · rw [if_neg (fun hcc => hc ⟨hsf.mp hcc.1, hcc.2⟩)]
          have hfr : failed_record_of cfg envs d maxR (i, w) = none := by
            simp only [failed_record_of, hlastAtt]
            rw [if_neg hc]
          rw [hfr]
      · simp only [summary_successful] at hs' ⊢
        rw [List.countP_append, List.countP_map, hfunS, hcS, hs',
          List.enumFrom_cons, List.countP_cons]
        simp only [hlastAtt]
        simp [Nat.add_comm]
      · simp only [summary_already_gmed] at ha' ⊢
        rw [List.countP_append, List.countP_map, hfunA, hcA, ha',
          List.enumFrom_cons, List.countP_cons]
        simp only [hlastAtt]
        simp [Nat.add_comm]

theorem send_tx_shape (cfg : BotConfig) (env : ChainEnv) (w : Wallet) :
    (send_gm_transaction cfg env w).tx = none
    ∨ ∃ n gp, env.nonce = Except.ok n ∧ env.gasPrice = Except.ok gp
        ∧ (send_gm_transaction cfg env w).tx = some
            { nonce := n,
              gasPrice := effective_gas_price gp cfg.max_gas_price_gwei
                cfg.gas_price_multiplier,
              gas := estimate_gas env.gasEstimate, chainId := cfg.chain_id } := by
  unfold send_gm_transaction
  cases hb : env.balance with
  | none => left; rfl
  | some b =>
      dsimp only
      split_ifs
      · left; rfl
      · left; rfl
      · cases hn : env.nonce with
        | error e => left; rfl
        | ok n =>
            cases hgp : env.gasPrice with
            | error e => left; rfl
            | ok gp =>
                cases hbt : env.buildTx with
                | error e => left; rfl
                | ok u =>
                    cases hsg : env.signTx with
                    | error e => right; exact ⟨n, gp, rfl, rfl, rfl⟩
                    | ok u2 =>
                        cases hbr : env.broadcast with
                        | error e => right; exact ⟨n, gp, rfl, rfl, rfl⟩
                        | ok txh =>
                            cases hr : env.waitReceipt 120 with
                            | error e => right; exact ⟨n, gp, rfl, rfl, rfl⟩
                            | ok s =>
                                dsimp only
                                split_ifs <;> (right; exact ⟨n, gp, rfl, rfl, rfl⟩)

/-- C7: gas estimation applies a 20% margin (the limit is the truncation of
estimate times 1.2, equivalently estimate plus a fifth of it, and never
below the estimate), and a raised estimate call falls back to the fixed
default limit 100000 instead of failing. -/
theorem C7_gas_estimate (g : ℕ) :
    estimate_gas (some g) = (⌊(g : ℚ) * (1.2 : ℚ)⌋).toNat
    ∧ estimate_gas (some g) = g + g / 5
    ∧ g ≤ estimate_gas (some g)
    ∧ estimate_gas none = 100000 := by
  have key : estimate_gas (some g) = g + g / 5 := by
    show (⌊(g : ℚ) * (1.2 : ℚ)⌋).toNat = g + g / 5
    have h1 : (g : ℚ) * (1.2 : ℚ) = ((6 * g : ℕ) : ℚ) / ((5 : ℕ) : ℚ) := by
      rw [show (1.2 : ℚ) = 6 / 5 by norm_num]
      push_cast
      ring
    rw [h1, Rat.floor_natCast_div_natCast]
    omega
  refine ⟨rfl, key, ?_, rfl⟩
  rw [key]
  exact Nat.le_add_right g (g / 5)

/-- C2: the effective gas price is min(network price, ceiling in wei) times
the multiplier, truncated; on the spec's two scenarios it gives 44 Gwei and
55 Gwei; it never exceeds ceiling times multiplier; and any transaction
`send_gm_transaction` builds carries exactly the policy price computed from
the fetched network gas price. -/
theorem C2_gas_price_policy (p c : ℕ) (m : ℚ) (hm : 0 ≤ m) :
    effective_gas_price p c m = (⌊((min p (c * 1000000000) : ℕ) : ℚ) * m⌋).toNat
    ∧ ((effective_gas_price p c m : ℚ) ≤ ((c * 1000000000 : ℕ) : ℚ) * m)
    ∧ effective_gas_price (40 * 1000000000) 50 (1.1 : ℚ) = 44 * 1000000000
    ∧ effective_gas_price (60 * 1000000000) 50 (1.1 : ℚ) = 55 * 1000000000
    ∧ (∀ (cfg : BotConfig) (env : ChainEnv) (w : Wallet) (t : TxRecord),
        (send_gm_transaction cfg env w).tx = some t →
        ∃ gp, env.gasPrice = Except.ok gp
          ∧ t.gasPrice = effective_gas_price gp cfg.max_gas_price_gwei
              cfg.gas_price_multiplier) := by
  have hminEq : effective_gas_price p c m
      = (⌊((min p (c * 1000000000) : ℕ) : ℚ) * m⌋).toNat := by
    simp only [effective_gas_price]
    rcases le_or_lt p (c * 1000000000) with hle | hlt
    · rw [if_neg (by omega), Nat.min_eq_left hle]
    · rw [if_pos (by omega), Nat.min_eq_right (by omega)]
  refine ⟨hminEq, ?_, ?_, ?_, ?_⟩
  · rw [hminEq]
    have hx : (0 : ℚ) ≤ ((min p (c * 1000000000) : ℕ) : ℚ) * m :=
      mul_nonneg (by positivity) hm
    have hfl : (0 : ℤ) ≤ ⌊((min p (c * 1000000000) : ℕ) : ℚ) * m⌋ := Int.floor_nonneg.mpr hx
    calc ((⌊((min p (c * 1000000000) : ℕ) : ℚ) * m⌋).toNat : ℚ)
        = ((⌊((min p (c * 1000000000) : ℕ) : ℚ) * m⌋ : ℤ) : ℚ) := by
          rw [← Int.cast_natCast, Int.toNat_of_nonneg hfl]
      _ ≤ ((min p (c * 1000000000) : ℕ) : ℚ) * m := Int.floor_le _
      _ ≤ ((c * 1000000000 : ℕ) : ℚ) * m := by
          apply mul_le_mul_of_nonneg_right _ hm
          exact_mod_cast Nat.min_le_right p (c * 1000000000)
  · norm_num [effective_gas_price]
    rfl
  · norm_num [effective_gas_price]
    rfl
  · intro cfg env w t ht
    rcases send_tx_shape cfg env w with h0 | ⟨n, gp, hn, hgp, h0⟩
    · rw [ht] at h0
      exact Option.noConfusion h0
    · rw [ht] at h0
      exact ⟨gp, hgp, by rw [Option.some.inj h0]⟩

/-- C5: any exception message raised during an attempt is classified by
case-insensitive keyword containment, in the source's order: insufficient
funds, then already/wait, then timeout, else the catch-all; the handler
returns the message verbatim with success false. -/
theorem C5_error_classification (e : List Char) (t : Option TxRecord) (s : Bool) :
    (isSub "insufficient funds".toList (lowerStr e) = true →
        classify_error e = WalletStatus.insufficientBalance)
    ∧ (isSub "insufficient funds".toList (lowerStr e) = false →
        (isSub "already".toList (lowerStr e) = true ∨ isSub "wait".toList (lowerStr e) = true) →
        classify_error e = WalletStatus.alreadyGmed)
    ∧ (isSub "insufficient funds".toList (lowerStr e) = false →
        isSub "already".toList (lowerStr e) = false →
        isSub "wait".toList (lowerStr e) = false →
        isSub "timeout".toList (lowerStr e) = true →
        classify_error e = WalletStatus.timeout)
    ∧ (isSub "insufficient funds".toList (lowerStr e) = false →
        isSub "already".toList (lowerStr e) = false →
        isSub "wait".toList (lowerStr e) = false →
        isSub "timeout".toList (lowerStr e) = false →
        classify_error e = WalletStatus.failed)
    ∧ (handle_exception e t s).message = e
    ∧ (handle_exception e t s).status = classify_error e
    ∧ (handle_exception e t s).success = false := by
  refine ⟨?_, ?_, ?_, ?_, rfl, rfl, rfl⟩
  · intro h1
    unfold classify_error
    rw [h1]
    rfl
  · intro h1 h2
    unfold classify_error
    rw [h1]
    rcases h2 with h2 | h2 <;> rw [h2] <;> simp
  · intro h1 h2 h3 h4
    unfold classify_error
    rw [h1, h2, h3, h4]
    rfl
  · intro h1 h2 h3 h4
    unfold classify_error
    rw [h1, h2, h3, h4]
    rfl

/-- C5 witness: concrete messages land in each class and are preserved. -/
theorem C5_error_classification_witness :
    classify_error "Insufficient FUNDS for gas".toList = WalletStatus.insufficientBalance
    ∧ classify_error "please wait 2h".toList = WalletStatus.alreadyGmed
    ∧ classify_error "Timeout after 120s".toList = WalletStatus.timeout
    ∧ classify_error "execution reverted".toList = WalletStatus.failed
    ∧ (handle_exception "execution reverted".toList none true).message
        = "execution reverted".toList :=
  ⟨(C5_error_classification ("Insufficient FUNDS for gas".toList) none true).1 (by decide),
   (C5_error_classification ("please wait 2h".toList) none true).2.1 (by decide)
     (Or.inr (by decide)),
   (C5_error_classification ("Timeout after 120s".toList) none true).2.2.1 (by decide)
     (by decide) (by decide) (by decide),
   (C5_error_classification ("execution reverted".toList) none true).2.2.2.1 (by decide)
     (by decide) (by decide) (by decide),
   (C5_error_classification ("execution reverted".toList) none true).2.2.2.2.1⟩

/-- C1 (code evaluation at the failing input): when the balance query is
unavailable the attempt returns Failed — not InsufficientBalance as the
spec demands — because formatting the missing balance raises a `TypeError`
that the catch-all classifies by its message; no transaction is built,
signed or broadcast. -/
theorem C1_balance_unavailable_eval :
    send_gm_transaction cfgA envNoBalance walletA =
      { success := false, status := WalletStatus.failed, message := none_format_error_msg,
        tx := none, broadcasted := false } := by
  decide

theorem send_waitReceipt_congr (cfg : BotConfig) (w : Wallet) (e1 e2 : ChainEnv)
    (h1 : e1.balance = e2.balance) (h2 : e1.nonce = e2.nonce)
    (h3 : e1.gasPrice = e2.gasPrice) (h4 : e1.gasEstimate = e2.gasEstimate)
    (h5 : e1.buildTx = e2.buildTx) (h6 : e1.signTx = e2.signTx)
    (h7 : e1.broadcast = e2.broadcast)
    (h8 : e1.waitReceipt 120 = e2.waitReceipt 120) :
    send_gm_transaction cfg e1 w = send_gm_transaction cfg e2 w := by
  cases e1 with
  | mk b1 n1 g1 ge1 bt1 sg1 br1 wr1 =>
      cases e2 with
      | mk b2 n2 g2 ge2 bt2 sg2 br2 wr2 =>
          simp only at h1 h2 h3 h4 h5 h6 h7 h8
          subst h1; subst h2; subst h3; subst h4; subst h5; subst h6; subst h7
          cases b1 with
          | none => rfl
          | some b =>
              simp only [send_gm_transaction]
              rw [h8]

/-- C6: after broadcast the processor waits for the receipt with the fixed
120-second timeout (only the value of the receipt call at timeout 120
matters), a status-1 receipt yields success with the transaction id in the
message, and any other status yields Failed with a reverted message that
carries the transaction id. -/
theorem C6_receipt_classification (cfg : BotConfig) (w : Wallet) (env : ChainEnv)
    (b : ℚ) (txh : List Char) (s n gp : ℕ)
    (hb : env.balance = some b) (hmin : ¬ b < min_balance)
    (hbr : env.broadcast = Except.ok txh) (hr : env.waitReceipt 120 = Except.ok s)
    (hn : env.nonce = Except.ok n) (hgp : env.gasPrice = Except.ok gp)
    (hbt : env.buildTx = Except.ok ()) (hsg : env.signTx = Except.ok ()) :
    (∀ f : ℕ → Except (List Char) ℕ, f 120 = env.waitReceipt 120 →
        send_gm_transaction cfg { env with waitReceipt := f } w
          = send_gm_transaction cfg env w)
    ∧ (s = 1 →
        (send_gm_transaction cfg env w).success = true
        ∧ (send_gm_transaction cfg env w).status = WalletStatus.success
        ∧ isSub txh (send_gm_transaction cfg env w).message = true)
    ∧ (s ≠ 1 →
        (send_gm_transaction cfg env w).success = false
        ∧ (send_gm_transaction cfg env w).status = WalletStatus.failed
        ∧ isSub "reverted".toList (send_gm_transaction cfg env w).message = true
        ∧ isSub txh (send_gm_transaction cfg env w).message = true) := by
  refine ⟨?_, ?_, ?_⟩
  · intro f hf
    exact send_waitReceipt_congr cfg w _ env rfl rfl rfl rfl rfl rfl rfl hf
  · intro hs
    subst hs
    refine ⟨?_, ?_, ?_⟩
    · simp [send_gm_transaction, hb, hbr, hr, hn, hgp, hbt, hsg, hmin, check_can_gm]
    · simp [send_gm_transaction, hb, hbr, hr, hn, hgp, hbt, hsg, hmin, check_can_gm]
    · have hm : (send_gm_transaction cfg env w).message = "TX: ".toList ++ txh := by
        simp [send_gm_transaction, hb, hbr, hr, hn, hgp, hbt, hsg, hmin, check_can_gm]
      rw [hm]
      exact isSub_append_self ("TX: ".toList) txh
  · intro hs
    refine ⟨?_, ?_, ?_, ?_⟩
    · simp [send_gm_transaction, hb, hbr, hr, hn, hgp, hbt, hsg, hmin, check_can_gm, hs]
    · simp [send_gm_transaction, hb, hbr, hr, hn, hgp, hbt, hsg, hmin, check_can_gm, hs]
    · have hm : (send_gm_transaction cfg env w).message
          = "Транзакция reverted. TX: ".toList ++ txh := by
        simp [send_gm_transaction, hb, hbr, hr, hn, hgp, hbt, hsg, hmin, check_can_gm, hs]
      rw [hm]
      exact isSub_append_right _ _ txh (by decide)
    · have hm : (send_gm_transaction cfg env w).message
          = "Транзакция reverted. TX: ".toList ++ txh := by
        simp [send_gm_transaction, hb, hbr, hr, hn, hgp, hbt, hsg, hmin, check_can_gm, hs]
      rw [hm]
      exact isSub_append_self _ txh

/-- C8 (amended): the eligibility pre-check always answers eligible, so the
pre-broadcast already-submitted branch is unreachable; every
AlreadySubmittedToday outcome is the keyword classification of an exception
message raised at some step of the attempt — the nonce fetch, the gas-price
fetch, the transaction build, the signing, the broadcast or the receipt
wait — not necessarily a chain revert. -/
theorem C8_eligibility (cfg : BotConfig) (env : ChainEnv) (w : Wallet) :
    check_can_gm w.address = (true, 0)
    ∧ ((send_gm_transaction cfg env w).status = WalletStatus.alreadyGmed →
        ∃ e, classify_error e = WalletStatus.alreadyGmed
          ∧ (send_gm_transaction cfg env w).message = e
          ∧ (env.nonce = Except.error e ∨ env.gasPrice = Except.error e
              ∨ env.buildTx = Except.error e ∨ env.signTx = Except.error e
              ∨ env.broadcast = Except.error e
              ∨ env.waitReceipt 120 = Except.error e)) := by
  refine ⟨rfl, ?_⟩
  intro hAG
  cases hb : env.balance with
  | none =>
      have hst : (send_gm_transaction cfg env w).status
          = classify_error none_format_error_msg := by
        simp [send_gm_transaction, hb, handle_exception]
      rw [hst] at hAG
      have hcl : classify_error none_format_error_msg = WalletStatus.failed := by decide
      rw [hcl] at hAG
      exact absurd hAG (by simp)
  | some b =>
      by_cases hmin : b < min_balance
      · have hst : (send_gm_transaction cfg env w).status
            = WalletStatus.insufficientBalance := by
          simp [send_gm_transaction, hb, hmin]
        rw [hst] at hAG
        exact absurd hAG (by simp)
      · cases hn : env.nonce with
        | error e =>
            have hst : (send_gm_transaction cfg env w).status = classify_error e := by
              simp [send_gm_transaction, hb, hmin, check_can_gm, hn, handle_exception]
            have hmsg : (send_gm_transaction cfg env w).message = e := by
              simp [send_gm_transaction, hb, hmin, check_can_gm, hn, handle_exception]
            exact ⟨e, by rw [← hst]; exact hAG, hmsg, Or.inl rfl⟩
        | ok n =>
            cases hgp : env.gasPrice with
            | error e =>
                have hst : (send_gm_transaction cfg env w).status = classify_error e := by
                  simp [send_gm_transaction, hb, hmin, check_can_gm, hn, hgp,
                    handle_exception]
                have hmsg : (send_gm_transaction cfg env w).message = e := by
                  simp [send_gm_transaction, hb, hmin, check_can_gm, hn, hgp,
                    handle_exception]
                exact ⟨e, by rw [← hst]; exact hAG, hmsg, Or.inr (Or.inl rfl)⟩
            | ok gp =>
                cases hbt : env.buildTx with
                | error e =>
                    have hst : (send_gm_transaction cfg env w).status
                        = classify_error e := by
                      simp [send_gm_transaction, hb, hmin, check_can_gm, hn, hgp, hbt,
                        handle_exception]
                    have hmsg : (send_gm_transaction cfg env w).message = e := by
                      simp [send_gm_transaction, hb, hmin, check_can_gm, hn, hgp, hbt,
                        handle_exception]
                    exact ⟨e, by rw [← hst]; exact hAG, hmsg,
                      Or.inr (Or.inr (Or.inl rfl))⟩
                | ok u =>
                    cases hsg : env.signTx with
                    | error e =>
                        have hst : (send_gm_transaction cfg env w).status
                            = classify_error e := by
                          simp [send_gm_transaction, hb, hmin, check_can_gm, hn, hgp,
                            hbt, hsg, handle_exception]
                        have hmsg : (send_gm_transaction cfg env w).message = e := by
                          simp [send_gm_transaction, hb, hmin, check_can_gm, hn, hgp,
                            hbt, hsg, handle_exception]
                        exact ⟨e, by rw [← hst]; exact hAG, hmsg,
                          Or.inr (Or.inr (Or.inr (Or.inl rfl)))⟩
                    | ok u2 =>
                        cases hbr : env.broadcast with
                        | error e =>
                            have hst : (send_gm_transaction cfg env w).status
                                = classify_error e := by
                              simp [send_gm_transaction, hb, hmin, check_can_gm, hn,
                                hgp, hbt, hsg, hbr, handle_exception]
                            have hmsg : (send_gm_transaction cfg env w).message = e := by
                              simp [send_gm_transaction, hb, hmin, check_can_gm, hn,
                                hgp, hbt, hsg, hbr, handle_exception]
                            exact ⟨e, by rw [← hst]; exact hAG, hmsg,
                              Or.inr (Or.inr (Or.inr (Or.inr (Or.inl rfl))))⟩
                        | ok txh =>
                            cases hr : env.waitReceipt 120 with
                            | error e =>
                                have hst : (send_gm_transaction cfg env w).status
                                    = classify_error e := by
                                  simp [send_gm_transaction, hb, hmin, check_can_gm,
                                    hn, hgp, hbt, hsg, hbr, hr, handle_exception]
                                have hmsg : (send_gm_transaction cfg env w).message
                                    = e := by
                                  simp [send_gm_transaction, hb, hmin, check_can_gm,
                                    hn, hgp, hbt, hsg, hbr, hr, handle_exception]
                                exact ⟨e, by rw [← hst]; exact hAG, hmsg,
                                  Or.inr (Or.inr (Or.inr (Or.inr (Or.inr rfl))))⟩
                            | ok s =>
                                exfalso
                                by_cases hs : s = 1
                                · have hst : (send_gm_transaction cfg env w).status
                                      = WalletStatus.success := by
                                    simp [send_gm_transaction, hb, hmin, check_can_gm,
                                      hn, hgp, hbt, hsg, hbr, hr, hs]
                                  rw [hst] at hAG
                                  exact absurd hAG (by simp)
                                · have hst : (send_gm_transaction cfg env w).status
                                      = WalletStatus.failed := by
                                    simp [send_gm_transaction, hb, hmin, check_can_gm,
                                      hn, hgp, hbt, hsg, hbr, hr, hs]
                                  rw [hst] at hAG
                                  exact absurd hAG (by simp)

/-- C8 counterexample: a pre-broadcast exception whose message contains
"wait" — here a failing nonce fetch — yields AlreadySubmittedToday although
nothing was broadcast and neither the broadcast nor the receipt wait
raised: the outcome does not come from a chain revert. -/
theorem C8_eligibility_counterexample :
    (send_gm_transaction cfgA envNonceWait walletA).status = WalletStatus.alreadyGmed
    ∧ (send_gm_transaction cfgA envNonceWait walletA).broadcasted = false
    ∧ ¬(∃ e, envNonceWait.broadcast = Except.error e
          ∨ envNonceWait.waitReceipt 120 = Except.error e) := by
  have h1 : ¬ (1 : ℚ) < min_balance := by norm_num [min_balance]
  refine ⟨?_, ?_, ?_⟩
  · have h2 : (send_gm_transaction cfgA envNonceWait walletA).status
        = classify_error ("please wait 10 seconds".toList) := by
      simp [send_gm_transaction, envNonceWait, envOk, h1, check_can_gm, handle_exception]
    rw [h2]
    decide
  · simp [send_gm_transaction, envNonceWait, envOk, h1, check_can_gm, handle_exception]
  · rintro ⟨e, h | h⟩ <;> simp [envNonceWait, envOk] at h

/-- C3: once at least one retry is configured, a wallet makes between 1 and
maxRetries attempts, numbered contiguously from 1; every attempt before the
last one ended in neither Success nor AlreadySubmittedToday (those outcomes
stop the loop); and the sleep between consecutive attempts is always exactly
the fixed retry delay — one sleep per re-attempt, no backoff. -/
theorem C3_retry_bounds (cfg : BotConfig) (envs1 : ℕ → ChainEnv) (w : Wallet)
    (d maxR : ℕ) (h : 1 ≤ maxR) :
    (1 ≤ (walletAttempts cfg envs1 d maxR w).length
      ∧ (walletAttempts cfg envs1 d maxR w).length ≤ maxR)
    ∧ (walletAttempts cfg envs1 d maxR w).map (fun e => e.attempt)
        = List.range' 1 (walletAttempts cfg envs1 d maxR w).length
    ∧ (∀ e ∈ (walletAttempts cfg envs1 d maxR w).dropLast,
        e.result.status ≠ WalletStatus.success
          ∧ e.result.status ≠ WalletStatus.alreadyGmed)
    ∧ walletSleepLog cfg envs1 d maxR w
        = List.replicate ((walletAttempts cfg envs1 d maxR w).length - 1) d := by
  refine ⟨⟨?_, ?_⟩, ?_, ?_, ?_⟩
  · exact List.length_pos.mpr (walletAttempts_ne_nil cfg envs1 d maxR w h)
  · exact retry_loop_length_le _ d maxR 1
  · exact retry_loop_attempts _ d maxR 1
  · intro e he
    have hmem : e ∈ walletAttempts cfg envs1 d maxR w := List.dropLast_subset _ he
    have hbc := retry_loop_dropLast _ d maxR 1 e he
    simp only [break_cond, Bool.or_eq_false_iff, decide_eq_false_iff_not] at hbc
    refine ⟨?_, hbc.2⟩
    intro hcontra
    have hsucc := (walletAttempts_success_iff cfg envs1 d maxR w e hmem).mpr hcontra
    rw [hbc.1] at hsucc
    exact Bool.noConfusion hsucc
  · exact retry_loop_sleeps _ d maxR 1

/-- C3 witness: with maxRetries = 2, delay 5 and a wallet that hits a
timeout-classified broadcast failure on every attempt, the bounds hold. -/
theorem C3_retry_bounds_witness :
    (1 ≤ (walletAttempts cfgA (fun _ => envTimeout) 5 2 walletA).length
      ∧ (walletAttempts cfgA (fun _ => envTimeout) 5 2 walletA).length ≤ 2)
    ∧ (walletAttempts cfgA (fun _ => envTimeout) 5 2 walletA).map (fun e => e.attempt)
        = List.range' 1 (walletAttempts cfgA (fun _ => envTimeout) 5 2 walletA).length
    ∧ (∀ e ∈ (walletAttempts cfgA (fun _ => envTimeout) 5 2 walletA).dropLast,
        e.result.status ≠ WalletStatus.success
          ∧ e.result.status ≠ WalletStatus.alreadyGmed)
    ∧ walletSleepLog cfgA (fun _ => envTimeout) 5 2 walletA
        = List.replicate ((walletAttempts cfgA (fun _ => envTimeout) 5 2 walletA).length - 1) 5 :=
  C3_retry_bounds cfgA (fun _ => envTimeout) walletA 5 2 (by omega)

/-- C9: with max_retries = 0 the attempt loop runs zero times, so the
post-loop failed-wallet check reads the never-assigned `status` variable and
the run raises on the first wallet instead of producing a terminal outcome;
with max_retries ≥ 1 the run always completes normally. -/
theorem C9_zero_retries (cfg : BotConfig) (envs : ℕ → ℕ → ChainEnv) (d : ℕ)
    (wallets : List Wallet) (hw : wallets ≠ []) :
    (∀ (ae : ℕ → ChainEnv) (w : Wallet), walletAttempts cfg ae d 0 w = [])
    ∧ run_bot cfg envs 0 d wallets = Except.error ()
    ∧ (∀ maxR, 1 ≤ maxR → ∃ out, run_bot cfg envs maxR d wallets = Except.ok out) := by
  refine ⟨fun ae w => rfl, ?_, ?_⟩
  · cases wallets with
    | nil => exact absurd rfl hw
    | cons w rest => rfl
  · intro maxR hm
    obtain ⟨rs, hrun, _, _⟩ := runFrom_spec cfg envs maxR d hm wallets 0
    exact ⟨_, hrun⟩

/-- C9 witness: a one-wallet run errors with zero retries and completes with
one retry. -/
theorem C9_zero_retries_witness :
    run_bot cfgA (fun _ _ => envOk) 0 5 [walletA] = Except.error ()
    ∧ ∃ out, run_bot cfgA (fun _ _ => envOk) 1 5 [walletA] = Except.ok out :=
  ⟨(C9_zero_retries cfgA (fun _ _ => envOk) 5 [walletA] (by simp)).2.1,
   (C9_zero_retries cfgA (fun _ _ => envOk) 5 [walletA] (by simp)).2.2 1 (by omega)⟩

/-- C10: in a completed run each wallet's attempt list holds at most one
Success and at most one AlreadySubmittedToday row, and the summary counters
computed over the whole result log equal the number of wallets whose
terminal outcome is Success, respectively AlreadySubmittedToday. -/
theorem C10_summary_counts (cfg : BotConfig) (envs : ℕ → ℕ → ChainEnv) (d maxR : ℕ)
    (wallets : List Wallet) (h : 1 ≤ maxR) :
    ∃ rs fs, run_bot cfg envs maxR d wallets = Except.ok (rs, fs)
      ∧ (∀ p ∈ wallets.enumFrom 0,
          (walletAttempts cfg (envs p.1) d maxR p.2).countP
              (fun e => decide (e.result.status = WalletStatus.success)) ≤ 1
          ∧ (walletAttempts cfg (envs p.1) d maxR p.2).countP
              (fun e => decide (e.result.status = WalletStatus.alreadyGmed)) ≤ 1)
      ∧ summary_successful rs
          = (wallets.enumFrom 0).countP (fun p =>
              decide ((lastAttempt cfg (envs p.1) d maxR p.2).status = WalletStatus.success))
      ∧ summary_already_gmed rs
          = (wallets.enumFrom 0).countP (fun p =>
              decide ((lastAttempt cfg (envs p.1) d maxR p.2).status
                = WalletStatus.alreadyGmed)) := by
  obtain ⟨rs, hrun, hs, ha⟩ := runFrom_spec cfg envs maxR d h wallets 0
  refine ⟨rs, _, hrun, ?_, hs, ha⟩
  intro p _
  constructor
  · rw [walletAttempts_countP cfg (envs p.1) d maxR p.2 h WalletStatus.success (Or.inl rfl)]
    split_ifs <;> omega
  · rw [walletAttempts_countP cfg (envs p.1) d maxR p.2 h WalletStatus.alreadyGmed
      (Or.inr rfl)]
    split_ifs <;> omega

/-- C10 witness: instantiation at a one-wallet run that succeeds at once. -/
theorem C10_summary_counts_witness :
    ∃ rs fs, run_bot cfgA (fun _ _ => envOk) 1 5 [walletA] = Except.ok (rs, fs)
      ∧ (∀ p ∈ [walletA].enumFrom 0,
          (walletAttempts cfgA ((fun _ _ => envOk) p.1) 5 1 p.2).countP
              (fun e => decide (e.result.status = WalletStatus.success)) ≤ 1
          ∧ (walletAttempts cfgA ((fun _ _ => envOk) p.1) 5 1 p.2).countP
              (fun e => decide (e.result.status = WalletStatus.alreadyGmed)) ≤ 1)
      ∧ summary_successful rs
          = ([walletA].enumFrom 0).countP (fun p =>
              decide ((lastAttempt cfgA ((fun _ _ => envOk) p.1) 5 1 p.2).status
                = WalletStatus.success))
      ∧ summary_already_gmed rs
          = ([walletA].enumFrom 0).countP (fun p =>
              decide ((lastAttempt cfgA ((fun _ _ => envOk) p.1) 5 1 p.2).status
                = WalletStatus.alreadyGmed)) :=
  C10_summary_counts cfgA (fun _ _ => envOk) 5 1 [walletA] (by omega)

/-- C4: after a completed run the failed-wallet list contains exactly the
wallets whose terminal attempt outcome is neither Success nor
AlreadySubmittedToday (given as a closed-form characterisation over the
indexed wallet list), and every failed record is persisted enriched with the
private key and proxy of a config wallet whose address matches the record's
address case-insensitively — no record is dropped. -/
theorem C4_failed_set (cfg : BotConfig) (envs : ℕ → ℕ → ChainEnv) (d maxR : ℕ)
    (wallets : List Wallet) (h : 1 ≤ maxR) :
    ∃ rs fs, run_bot cfg envs maxR d wallets = Except.ok (rs, fs)
      ∧ fs = (wallets.enumFrom 0).filterMap (failed_record_of cfg envs d maxR)
      ∧ (∀ f ∈ fs, ∃ w0, w0 ∈ wallets
          ∧ lowerStr w0.address = lowerStr f.address
          ∧ ({ address := w0.address, private_key := w0.private_key, proxy := w0.proxy,
               last_error := f.last_error, last_status := f.last_status } :
              EnrichedFailedWallet) ∈ enrich_failed_wallets wallets fs)
      ∧ (enrich_failed_wallets wallets fs).length = fs.length := by
  obtain ⟨rs, hrun, _, _⟩ := runFrom_spec cfg envs maxR d h wallets 0
  have haddr : ∀ f ∈ (wallets.enumFrom 0).filterMap (failed_record_of cfg envs d maxR),
      ∃ w0 ∈ wallets, w0.address = f.address := by
    intro f hf
    obtain ⟨p, hp, hfr⟩ := List.mem_filterMap.mp hf
    refine ⟨p.2, snd_mem_of_mem_enumFrom hp, ?_⟩
    simp only [failed_record_of] at hfr
    split_ifs at hfr
    rw [← Option.some.inj hfr]
  refine ⟨rs, _, hrun, rfl, ?_, ?_⟩
  · intro f hf
    obtain ⟨w0, hw0, haeq⟩ := haddr f hf
    obtain ⟨b, hfind, hbmem, hbp⟩ := find?_of_exists wallets
      (fun w2 => decide (lowerStr w2.address = lowerStr f.address))
      ⟨w0, hw0, by simp [haeq]⟩
    simp only [decide_eq_true_eq] at hbp
    refine ⟨b, hbmem, hbp, ?_⟩
    apply List.mem_filterMap.mpr
    refine ⟨f, hf, ?_⟩
    rw [hfind]
    rfl
  · apply filterMap_length_of_isSome
    intro f hf
    obtain ⟨w0, hw0, haeq⟩ := haddr f hf
    obtain ⟨b, hfind, _, _⟩ := find?_of_exists wallets
      (fun w2 => decide (lowerStr w2.address = lowerStr f.address))
      ⟨w0, hw0, by simp [haeq]⟩
    simp [hfind]

/-- C4 witness: a one-wallet run whose only wallet times out on both
attempts feeds the failed set and the enrichment. -/
theorem C4_failed_set_witness :
    ∃ rs fs, run_bot cfgA (fun _ _ => envTimeout) 2 5 [walletA] = Except.ok (rs, fs)
      ∧ fs = ([walletA].enumFrom 0).filterMap
          (failed_record_of cfgA (fun _ _ => envTimeout) 5 2)
      ∧ (∀ f ∈ fs, ∃ w0, w0 ∈ [walletA]
          ∧ lowerStr w0.address = lowerStr f.address
          ∧ ({ address := w0.address, private_key := w0.private_key, proxy := w0.proxy,
               last_error := f.last_error, last_status := f.last_status } :
              EnrichedFailedWallet) ∈ enrich_failed_wallets [walletA] fs)
      ∧ (enrich_failed_wallets [walletA] fs).length = fs.length :=
  C4_failed_set cfgA (fun _ _ => envTimeout) 5 2 [walletA] (by omega)

/-- C2 witness: the policy applied at the spec's scenario inputs. -/
theorem C2_gas_price_policy_witness :
    (0 : ℚ) ≤ (1.1 : ℚ)
    ∧ effective_gas_price (40 * 1000000000) 50 (1.1 : ℚ) = 44 * 1000000000
    ∧ effective_gas_price (60 * 1000000000) 50 (1.1 : ℚ) = 55 * 1000000000 :=
  ⟨by norm_num,
   (C2_gas_price_policy 1 1 (1.1 : ℚ) (by norm_num)).2.2.1,
   (C2_gas_price_policy 1 1 (1.1 : ℚ) (by norm_num)).2.2.2.1⟩

/-- C6 witness: a concrete confirmed submission carries its hash. -/
theorem C6_receipt_classification_witness :
    (send_gm_transaction cfgA envOk walletA).success = true
    ∧ (send_gm_transaction cfgA envOk walletA).status = WalletStatus.success
    ∧ isSub "deadbeef".toList (send_gm_transaction cfgA envOk walletA).message = true :=
  (C6_receipt_classification cfgA walletA envOk 1 ("deadbeef".toList) 1 7 2000000000 rfl
    (by norm_num [min_balance]) rfl rfl rfl rfl rfl rfl).2.1 rfl

/-- C7 witness: concrete estimates. -/
theorem C7_gas_estimate_witness :
    estimate_gas (some 50000) = 60000 ∧ estimate_gas none = 100000 := by
  have h := (C7_gas_estimate 50000).2.1
  norm_num at h
  exact ⟨h, (C7_gas_estimate 50000).2.2.2⟩

/-- C8 witness: an already-submitted outcome produced by a broadcast revert
message. -/
theorem C8_eligibility_witness :
    check_can_gm walletA.address = (true, 0)
    ∧ ∃ e, classify_error e = WalletStatus.alreadyGmed
        ∧ (send_gm_transaction cfgA envAlready walletA).message = e
        ∧ (envAlready.nonce = Except.error e ∨ envAlready.gasPrice = Except.error e
            ∨ envAlready.buildTx = Except.error e ∨ envAlready.signTx = Except.error e
            ∨ envAlready.broadcast = Except.error e
            ∨ envAlready.waitReceipt 120 = Except.error e) := by
  have h1 : ¬ (1 : ℚ) < min_balance := by norm_num [min_balance]
  have h2 : (send_gm_transaction cfgA envAlready walletA).status
      = classify_error ("GM already sent, wait 1h".toList) := by
    simp [send_gm_transaction, envAlready, envOk, cfgA, h1, check_can_gm, handle_exception]
  have hAG : (send_gm_transaction cfgA envAlready walletA).status
      = WalletStatus.alreadyGmed := by
    rw [h2]
    decide
  exact ⟨(C8_eligibility cfgA envAlready walletA).1,
    (C8_eligibility cfgA envAlready walletA).2 hAG⟩
